import Mathlib

/-!
Verification development for the cryptotruth request-deduplication cache and
rate-limiting layer.

The repository is TypeScript; the definitions below are a shallow embedding of
the functions the claims are about:

* `sanitizeHandle` / `sanitizeInput` / `toKey` — the input normalizers of
  `src/api/analyze.ts` (strict handle mode, lines 23-36, and the permissive
  display-name mode of the second handler in that file, lines 452-466 and 635).
* `RateLimit.checkRateLimit` — the fixed-window rate limiter.  The function
  `checkRateLimit` is textually identical in `src/api/analyze.ts` (both
  handlers) and `src/api/analyze-enhanced.ts`; it is embedded once.
* `getCachedAnalysisTTL` — the TTL-checking cache read shared by all handler
  variants, parameterized by the per-module `CACHE_DURATION_MS` constant
  (72 h in the first `analyze.ts` handler, 24 h in the second handler and in
  `analyze-enhanced.ts`).
* `AnalyzeA.handler` — the control flow of the first handler in
  `src/api/analyze.ts` (lines 182-437); `AnalyzeV2.handler` — the second
  handler in the same file (lines 612-860, quick/deep scan modes).
* `GeminiService.extractJson` — the defensive three-step JSON extraction of the
  Gemini service modules (`src/unnamed/part_005` and `part_007`).

Conventions of the embedding:

* Wall-clock timestamps are `Int` epoch milliseconds (JS `number` arithmetic
  on timestamps is exact integer arithmetic in the ranges involved).
* The blob store is modelled as a value of type `Except Unit σ` handed to the
  function: `.error ()` models the whole try-block failing (store unreachable,
  fetch error or malformed stored JSON — any thrown exception), `.ok s` models
  a successful read observing contents `s`.
* The external generative-AI call (plus the response-shaping code that is not
  the subject of any claim) is modelled as an `Except Nat P` oracle in the
  environment: `.ok payload` is a successful upstream call whose final shaped
  payload is `payload`; `.error status` is a thrown upstream error already
  mapped to the HTTP status the catch-block would produce.
* JSON payloads are structures exposing exactly the fields the claims read,
  plus an opaque `rest` component for all other fields.
* `JSON.parse` (a JS builtin) is passed to `extractJson` as an abstract
  `parse : String → Option α` parameter.
* JS `toLowerCase` is modelled character-wise on the basic-latin range
  (`toLowerJs`); all inputs appearing in the claims are in that range.
-/

/-! ## Character and string primitives (JS semantics) -/

/-- The JS `\s` / `String.prototype.trim` whitespace class, by code point. -/
def isJsSpace (c : Char) : Bool :=
  c.toNat = 9 || c.toNat = 10 || c.toNat = 11 || c.toNat = 12 || c.toNat = 13 ||
  c.toNat = 32 || c.toNat = 160 || c.toNat = 5760 ||
  (8192 ≤ c.toNat && c.toNat ≤ 8202) ||
  c.toNat = 8232 || c.toNat = 8233 || c.toNat = 8239 || c.toNat = 8287 ||
  c.toNat = 12288 || c.toNat = 65279

/-- JS `String.prototype.trim`: drop leading and trailing whitespace. -/
def trimJs (cs : List Char) : List Char :=
  ((cs.dropWhile isJsSpace).reverse.dropWhile isJsSpace).reverse

/-- JS `.replace(/^@/, '')`: strip a single leading `@`. -/
def stripAt : List Char → List Char
  | [] => []
  | c :: rest => if c = '@' then rest else c :: rest

/-- JS `toLowerCase`, character-wise on the basic-latin range. -/
def toLowerJs (c : Char) : Char :=
  if 65 ≤ c.toNat ∧ c.toNat ≤ 90 then Char.ofNat (c.toNat + 32) else c

/-- The character class of the strict-mode regex `^[a-zA-Z0-9_]+$`. -/
def isHandleChar (c : Char) : Bool :=
  (65 ≤ c.toNat && c.toNat ≤ 90) || (97 ≤ c.toNat && c.toNat ≤ 122) ||
  (48 ≤ c.toNat && c.toNat ≤ 57) || c.toNat = 95

/-- The permissive-mode denylist regex `[<>{}()[\];`$\\|&]`, by code point:
`<` 60, `>` 62, `\x7b` 123, `\x7d` 125, `(` 40, `)` 41, `[` 91, `]` 93,
`;` 59, backtick 96, `$` 36, backslash 92, `|` 124, `&` 38. -/
def dangerousChar (c : Char) : Bool :=
  c.toNat = 60 || c.toNat = 62 || c.toNat = 123 || c.toNat = 125 ||
  c.toNat = 40 || c.toNat = 41 || c.toNat = 91 || c.toNat = 93 ||
  c.toNat = 59 || c.toNat = 96 || c.toNat = 36 || c.toNat = 92 ||
  c.toNat = 124 || c.toNat = 38

/-- Worker for JS `.replace(/\s+/g, '_')`: each maximal whitespace run becomes
a single `_`.  The flag records whether we are inside a whitespace run. -/
def foldWsAux : List Char → Bool → List Char
  | [], _ => []
  | c :: rest, inRun =>
    if isJsSpace c then
      if inRun then foldWsAux rest true else '_' :: foldWsAux rest true
    else c :: foldWsAux rest false

/-- JS `.replace(/\s+/g, '_')`. -/
def foldWs (cs : List Char) : List Char := foldWsAux cs false

/-! ## Input normalizers (`src/api/analyze.ts`) -/

/-- Maximum accepted input length (`MAX_HANDLE_LENGTH`). -/
def MAX_HANDLE_LENGTH : Nat := 50

/-- `sanitizeHandle` of `src/api/analyze.ts` lines 23-36 (strict handle mode,
also the identical function in `src/api/analyze-enhanced.ts`): trim, strip one
leading `@`, enforce 1..50 length, require `[a-zA-Z0-9_]+`, lower-case. -/
def sanitizeHandle (handle : String) : Option String :=
  let s := stripAt (trimJs handle.toList)
  if s.length = 0 ∨ s.length > MAX_HANDLE_LENGTH then none
  else if ¬ (s.all isHandleChar) then none
  else some (String.mk (s.map toLowerJs))

/-- `sanitizeInput` of `src/api/analyze.ts` lines 452-466 (permissive display
name mode): trim, strip one leading `@`, enforce 1..50 length, reject inputs
containing a denylisted character, preserve case. -/
def sanitizeInput (input : String) : Option String :=
  let s := stripAt (trimJs input.toList)
  if s.length = 0 ∨ s.length > MAX_HANDLE_LENGTH then none
  else if s.any dangerousChar then none
  else some (String.mk s)

/-- Key derivation of the permissive handler, `src/api/analyze.ts` line 635:
`inputQuery.toLowerCase().replace(/\s+/g, '_')`. -/
def toKey (s : String) : String :=
  String.mk (foldWs (s.toList.map toLowerJs))

/-! ## Rate limiter (`checkRateLimit`, identical in all three modules) -/

namespace RateLimit

/-- `RATE_LIMIT_WINDOW_MS = 60 * 60 * 1000` (1 hour). -/
def RATE_LIMIT_WINDOW_MS : Int := 60 * 60 * 1000

/-- `MAX_REQUESTS_PER_WINDOW = 10`. -/
def MAX_REQUESTS_PER_WINDOW : Nat := 10

/-- The JSON object stored at `ratelimit/{hashedIdentity}.json`. -/
structure RateCounter where
  windowStart : Int
  count : Nat
deriving DecidableEq, Repr

/-- The value returned by `checkRateLimit`. -/
structure RateCheckResult where
  allowed : Bool
  remaining : Int
deriving DecidableEq, Repr

/-- The body of `checkRateLimit` after a successful store read (`src/api/analyze.ts`
lines 70-112).  Input: the stored counter (if any) and `now`.  Output: the
result returned to the caller, and the counter written back by `put`
(`none` = no write: the deny branch returns without writing). -/
def checkRateLimit (stored : Option RateCounter) (now : Int) :
    RateCheckResult × Option RateCounter :=
  match stored with
  | some data =>
    if now - data.windowStart > RATE_LIMIT_WINDOW_MS then
      -- window expired: reset
      (⟨true, (MAX_REQUESTS_PER_WINDOW : Int) - 1⟩, some ⟨now, 1⟩)
    else if data.count ≥ MAX_REQUESTS_PER_WINDOW then
      -- window active, quota exhausted: deny without writing
      (⟨false, 0⟩, none)
    else
      -- window active, below quota: increment
      (⟨true, (MAX_REQUESTS_PER_WINDOW : Int) - ((data.count : Int) + 1)⟩,
        some ⟨data.windowStart, data.count + 1⟩)
  | none =>
    -- no existing counter: create
    (⟨true, (MAX_REQUESTS_PER_WINDOW : Int) - 1⟩, some ⟨now, 1⟩)

/-- `checkRateLimit` including its catch-block (lines 114-118): any store
failure degrades to `allowed: true, remaining: MAX_REQUESTS_PER_WINDOW` with
no write. -/
def checkRateLimitWith (access : Except Unit (Option RateCounter)) (now : Int) :
    RateCheckResult × Option RateCounter :=
  match access with
  | .error _ => (⟨true, (MAX_REQUESTS_PER_WINDOW : Int)⟩, none)
  | .ok stored => checkRateLimit stored now

/-- The store contents after a call: the written counter if a write happened,
otherwise the previous contents. -/
def nextStore (stored : Option RateCounter) (write : Option RateCounter) :
    Option RateCounter :=
  match write with
  | some c => some c
  | none => stored

/-- Run a sequence of checks at the given times, threading the store. -/
def runChecks (stored : Option RateCounter) :
    List Int → List RateCheckResult × Option RateCounter
  | [] => ([], stored)
  | t :: ts =>
    let step := checkRateLimit stored t
    let rest := runChecks (nextStore stored step.2) ts
    (step.1 :: rest.1, rest.2)

end RateLimit

/-! ## Content cache read (`getCachedAnalysis`) -/

/-- A stored cache blob as the handlers see it: the store-assigned
`uploadedAt` timestamp, and the result of fetching and JSON-parsing its
content (`.error ()` = fetch failure or malformed stored JSON, which the
surrounding try/catch turns into a miss). -/
structure CacheBlob (α : Type) where
  uploadedAt : Int
  content : Except Unit α

/-- `getCachedAnalysis`, parameterized by the module's `CACHE_DURATION_MS`:
list the key prefix (`access`), miss on no blob, compute
`age = now - uploadedAt`, miss if `age > ttl`, otherwise fetch and parse the
payload; every thrown error is caught and degraded to a miss. -/
def getCachedAnalysisTTL {α : Type} (ttl : Int)
    (access : Except Unit (Option (CacheBlob α))) (now : Int) :
    Option (α × Int) :=
  match access with
  | .error _ => none
  | .ok none => none
  | .ok (some blob) =>
    if now - blob.uploadedAt > ttl then none
    else
      match blob.content with
      | .error _ => none
      | .ok data => some (data, blob.uploadedAt)

/-! ## Shared handler notions -/

/-- Observable effects of one request, in program order. -/
inductive Event where
  | cacheGet
  | rateCheck (allowed : Bool)
  | aiCall
  | cacheSet
deriving DecidableEq, Repr

/-! ## First handler of `src/api/analyze.ts` (lines 182-437) -/

namespace AnalyzeA

/-- `CACHE_DURATION_MS = 72 * 60 * 60 * 1000` (72 hours) in this module. -/
def CACHE_DURATION_MS : Int := 72 * 60 * 60 * 1000

/-- The slice of the report payload the claims read, plus an opaque `rest`
for every other field.  `none` models an absent JSON field. -/
structure Payload where
  credibilityStrengths : Option (List String)
  riskFactors : Option (List String)
  totalWins : Option Int
  totalLosses : Option Int
  sources : Option (List String)
  rest : String
deriving DecidableEq, Repr

/-- `getCachedAnalysis` of this module (lines 131-163), TTL 72 h. -/
def getCachedAnalysis (access : Except Unit (Option (CacheBlob Payload)))
    (now : Int) : Option (Payload × Int) :=
  getCachedAnalysisTTL CACHE_DURATION_MS access now

/-- The backward-compatibility normalization applied to a cache hit
(lines 215-224): default `credibilityStrengths` and `riskFactors` to `[]`,
delete `totalWins`, `totalLosses` and `sources`. -/
def applyCacheDefaults (data : Payload) : Payload :=
  { data with
    credibilityStrengths := some (data.credibilityStrengths.getD [])
    riskFactors := some (data.riskFactors.getD [])
    totalWins := none
    totalLosses := none
    sources := none }

/-- The request fields the handler reads from `req`. -/
structure Request where
  method : String
  rawHandle : String
  rawLanguage : String
  forceRefresh : Bool

/-- The environment of one invocation: configuration, the store contents
observed by the cache read and the limiter read, the current time, and the
outcome of the external AI call (composed with the response shaping that no
claim is about): `.ok p` = success producing payload `p`, `.error st` = a
thrown upstream error already mapped to response status `st` by the
catch-block. -/
structure Env where
  apiKeyPresent : Bool
  cacheAccess : Except Unit (Option (CacheBlob Payload))
  rateAccess : Except Unit (Option RateLimit.RateCounter)
  now : Int
  ai : Except Nat Payload

/-- Response bodies, keeping only claim-relevant structure. -/
inductive Body where
  | methodNotAllowed
  | serverConfigError
  | invalidInput
  | rateLimited
  | upstreamError (status : Nat)
  | report (data : Payload) (handle : String) (source : String)
      (cachedAt : Option Int)
deriving DecidableEq, Repr

/-- An HTTP response: status code and body. -/
structure Response where
  status : Nat
  body : Body
deriving DecidableEq, Repr

/-- Everything one invocation produces: the response, the effect trace, the
counter written by the limiter (if any) and the payload written to the cache
(if any). -/
structure HandlerOut where
  response : Response
  events : List Event
  rateWrite : Option RateLimit.RateCounter
  cacheWrite : Option Payload
deriving DecidableEq, Repr

/-- `JSON.parse(text || "{}")` — the single-step response-text parse of this
handler (lines 305-306), with `parse` standing for the `JSON.parse` builtin. -/
def parseResponseText {α : Type} (parse : String → Option α) (text : String) :
    Option α :=
  parse (if text = "" then "\x7b\x7d" else text)

/-- The handler of lines 182-437: method check, API-key check, input
validation, cache check (skipped entirely on `forceRefresh`), rate limiting
on every request reaching this point, then the external AI call and the
fire-and-forget cache write. -/
def handler (req : Request) (env : Env) : HandlerOut :=
  if req.method ≠ "POST" then ⟨⟨405, .methodNotAllowed⟩, [], none, none⟩
  else if env.apiKeyPresent = false then ⟨⟨500, .serverConfigError⟩, [], none, none⟩
  else
    match sanitizeHandle req.rawHandle with
    | none => ⟨⟨400, .invalidInput⟩, [], none, none⟩
    | some handle =>
      match (if req.forceRefresh = false
             then getCachedAnalysis env.cacheAccess env.now
             else none) with
      | some hit =>
        ⟨⟨200, .report (applyCacheDefaults hit.1) handle "cache" (some hit.2)⟩,
          [Event.cacheGet], none, none⟩
      | none =>
        if (RateLimit.checkRateLimitWith env.rateAccess env.now).1.allowed
            = false then
          ⟨⟨429, .rateLimited⟩,
            (if req.forceRefresh = false then [Event.cacheGet] else []) ++
              [Event.rateCheck
                (RateLimit.checkRateLimitWith env.rateAccess env.now).1.allowed],
            (RateLimit.checkRateLimitWith env.rateAccess env.now).2, none⟩
        else
          match env.ai with
          | .error st =>
            ⟨⟨st, .upstreamError st⟩,
              (if req.forceRefresh = false then [Event.cacheGet] else []) ++
                [Event.rateCheck
                  (RateLimit.checkRateLimitWith env.rateAccess env.now).1.allowed,
                  Event.aiCall],
              (RateLimit.checkRateLimitWith env.rateAccess env.now).2, none⟩
          | .ok fullData =>
            ⟨⟨200, .report fullData handle "api" none⟩,
              (if req.forceRefresh = false then [Event.cacheGet] else []) ++
                [Event.rateCheck
                  (RateLimit.checkRateLimitWith env.rateAccess env.now).1.allowed,
                  Event.aiCall, Event.cacheSet],
              (RateLimit.checkRateLimitWith env.rateAccess env.now).2,
              some fullData⟩

/-- A forced-refresh request (concrete handle, `forceRefresh = true`). -/
def forcedReq : Request := ⟨"POST", "kol", "en", true⟩

/-- Environment for one forced call: rate store contents `s`, time `t`,
upstream success with payload `p`. -/
def mkForcedEnv (s : Option RateLimit.RateCounter) (t : Int) (p : Payload) : Env :=
  ⟨true, .ok none, .ok s, t, .ok p⟩

/-- Statuses of `n` consecutive forced-refresh calls from one identity at
time `t`, threading the rate-limit store between calls. -/
def runForcedStatuses (p : Payload) :
    Option RateLimit.RateCounter → Int → Nat → List Nat
  | _, _, 0 => []
  | s, t, n + 1 =>
    let out := handler forcedReq (mkForcedEnv s t p)
    out.response.status ::
      runForcedStatuses p (RateLimit.nextStore s out.rateWrite) t n

end AnalyzeA

/-! ## Second handler of `src/api/analyze.ts` (lines 612-860) -/

namespace AnalyzeV2

/-- `CACHE_DURATION_MS = 24 * 60 * 60 * 1000` (24 hours) in this module, also
in `src/api/analyze-enhanced.ts`. -/
def CACHE_DURATION_MS : Int := 24 * 60 * 60 * 1000

/-- A history event as this handler post-processes it: its `sourceUrl` field
(`none` = absent) and an opaque `rest` for the other fields. -/
structure HistEvent where
  sourceUrl : Option String
  rest : String
deriving DecidableEq, Repr

/-- The slice of this handler's payloads the claims read (the second
handler's reports carry `totalWins`/`totalLosses`/`sources` as live fields and
a `history` list), plus an opaque `rest`. -/
structure Payload where
  credibilityStrengths : Option (List String)
  riskFactors : Option (List String)
  totalWins : Option Int
  totalLosses : Option Int
  sources : Option (List String)
  history : Option (List HistEvent)
  rest : String
deriving DecidableEq, Repr

/-- Scan mode: `forceRefresh=true` triggers DEEP, otherwise QUICK (line 639). -/
inductive Mode where
  | quick
  | deep
deriving DecidableEq, Repr

/-- `getCachedAnalysis` of this module (lines 561-593), TTL 24 h. -/
def getCachedAnalysis (access : Except Unit (Option (CacheBlob Payload)))
    (now : Int) : Option (Payload × Int) :=
  getCachedAnalysisTTL CACHE_DURATION_MS access now

/-- JS truthiness of `e.sourceUrl`: absent, `null` and `""` are falsy. -/
def truthyUrl : Option String → Bool
  | none => false
  | some s => s ≠ ""

/-- Lines 834-836: if `history` is an array, keep only events with a truthy
`sourceUrl` and truncate to 8. -/
def processHistory : Option (List HistEvent) → Option (List HistEvent)
  | none => none
  | some h => some ((h.filter (fun e => truthyUrl e.sourceUrl)).take 8)

/-- Request fields read by this handler. -/
structure Request where
  method : String
  rawHandle : String
  rawLanguage : String
  forceRefresh : Bool

/-- The environment: the cache store is keyed per scan mode (the cache path
contains the mode, line 555); quick and deep upstream calls are separate
oracles (each composed with its result assembly). -/
structure Env where
  apiKeyPresent : Bool
  cacheAccess : Mode → Except Unit (Option (CacheBlob Payload))
  rateAccess : Except Unit (Option RateLimit.RateCounter)
  now : Int
  aiQuick : Except Nat Payload
  aiDeep : Except Nat Payload

/-- Response bodies of this handler. -/
inductive Body where
  | methodNotAllowed
  | serverConfigError
  | invalidInput
  | rateLimited
  | upstreamError (status : Nat)
  | report (data : Payload) (handle : String) (source : String)
      (cachedAt : Option Int)
deriving DecidableEq, Repr

/-- An HTTP response of this handler. -/
structure Response where
  status : Nat
  body : Body
deriving DecidableEq, Repr

/-- Response, effect trace and store writes of one invocation. -/
structure HandlerOut where
  response : Response
  events : List Event
  rateWrite : Option RateLimit.RateCounter
  cacheWrite : Option Payload
deriving DecidableEq, Repr

/-- The handler of lines 612-860: method check, API-key check, input
validation, key derivation, mode selection (`forceRefresh` selects DEEP), an
unconditional mode-keyed cache check, rate limiting only in DEEP mode, then
the mode's upstream call; the DEEP result's history is filtered to sourced
events and truncated to 8 before being cached and returned. -/
def handler (req : Request) (env : Env) : HandlerOut :=
  if req.method ≠ "POST" then ⟨⟨405, .methodNotAllowed⟩, [], none, none⟩
  else if env.apiKeyPresent = false then ⟨⟨500, .serverConfigError⟩, [], none, none⟩
  else
    match sanitizeInput req.rawHandle with
    | none => ⟨⟨400, .invalidInput⟩, [], none, none⟩
    | some inputQuery =>
      match getCachedAnalysis
          (env.cacheAccess (if req.forceRefresh then Mode.deep else Mode.quick))
          env.now with
      | some hit =>
        ⟨⟨200, .report hit.1 (toKey inputQuery) "cache" (some hit.2)⟩,
          [Event.cacheGet], none, none⟩
      | none =>
        match (if req.forceRefresh then Mode.deep else Mode.quick) with
        | Mode.deep =>
          if (RateLimit.checkRateLimitWith env.rateAccess env.now).1.allowed
              = false then
            ⟨⟨429, .rateLimited⟩,
              [Event.cacheGet, Event.rateCheck
                (RateLimit.checkRateLimitWith env.rateAccess env.now).1.allowed],
              (RateLimit.checkRateLimitWith env.rateAccess env.now).2, none⟩
          else
            match env.aiDeep with
            | .error st =>
              ⟨⟨st, .upstreamError st⟩,
                [Event.cacheGet, Event.rateCheck
                  (RateLimit.checkRateLimitWith env.rateAccess env.now).1.allowed,
                  Event.aiCall],
                (RateLimit.checkRateLimitWith env.rateAccess env.now).2, none⟩
            | .ok data =>
              ⟨⟨200, .report { data with history := processHistory data.history }
                  (toKey inputQuery) "api" none⟩,
                [Event.cacheGet, Event.rateCheck
                  (RateLimit.checkRateLimitWith env.rateAccess env.now).1.allowed,
                  Event.aiCall, Event.cacheSet],
                (RateLimit.checkRateLimitWith env.rateAccess env.now).2,
                some { data with history := processHistory data.history }⟩
        | Mode.quick =>
          match env.aiQuick with
          | .error st =>
            ⟨⟨st, .upstreamError st⟩,
              [Event.cacheGet, Event.aiCall], none, none⟩
          | .ok result =>
            ⟨⟨200, .report result (toKey inputQuery) "api" none⟩,
              [Event.cacheGet, Event.aiCall, Event.cacheSet], none, some result⟩

end AnalyzeV2

/-! ## Defensive JSON extraction (`src/unnamed/part_005`, `part_007`) -/

namespace GeminiService

/-- Index of the first occurrence of `pat` in `s` (JS `indexOf` on a fixed
pattern), or `none`. -/
def findSeq (pat : List Char) : List Char → Option Nat
  | [] => if pat = [] then some 0 else none
  | c :: rest =>
    if pat.isPrefixOf (c :: rest) then some 0
    else (findSeq pat rest).map (· + 1)

/-- JS `String.prototype.substring s st en`: clamps and swaps its endpoints. -/
def substringJs (cs : List Char) (st en : Nat) : List Char :=
  (cs.drop (min st en)).take (max st en - min st en)

/-- The capture of `text.match(/```json\s*([\s\S]*?)\s*```/)`: locate the
first ` ```json `, take the content up to the next ` ``` `, with surrounding
whitespace absorbed by the `\s*`s (i.e. trimmed); `none` when the regex does
not match. -/
def fencedCapture (text : String) : Option String :=
  let cs := text.toList
  match findSeq "```json".toList cs with
  | none => none
  | some i =>
    let after := cs.drop (i + 7)
    match findSeq "```".toList after with
    | none => none
    | some j => some (String.mk (trimJs (after.take j)))

/-- First index of `'\x7b'` in `cs` (JS `indexOf('\x7b')`). -/
def openBraceIdx (cs : List Char) : Option Nat :=
  findSeq [Char.ofNat 123] cs

/-- Last index of `'\x7d'` in `cs` (JS `lastIndexOf('\x7d')`). -/
def closeBraceIdx (cs : List Char) : Option Nat :=
  match findSeq [Char.ofNat 125] cs.reverse with
  | none => none
  | some k => some (cs.length - 1 - k)

/-- The bracket-sliced substring `text.substring(start, end + 1)` of the third
fallback (lines 52-61 of `part_007`), available only when both `indexOf('\x7b')`
and `lastIndexOf('\x7d')` succeed. -/
def braceSlice (text : String) : Option String :=
  let cs := text.toList
  match openBraceIdx cs, closeBraceIdx cs with
  | some a, some b => some (String.mk (substringJs cs a (b + 1)))
  | _, _ => none

/-- `extractJson` of `part_005`/`part_007`: direct `JSON.parse`; on failure,
parse the ` ```json ` fenced block capture (skipped when the match fails or the
capture is empty — JS falsiness of `match[1]`); on failure, parse the
first-`\x7b`-to-last-`\x7d` slice; `null` when everything failed.  The
`JSON.parse` builtin is the abstract parameter `parse`. -/
def extractJson {α : Type} (parse : String → Option α) (text : String) :
    Option α :=
  match parse text with
  | some v => some v
  | none =>
    let step2 : Option α :=
      match fencedCapture text with
      | some m => if m ≠ "" then parse m else none
      | none => none
    match step2 with
    | some v => some v
    | none =>
      match braceSlice text with
      | some sub => parse sub
      | none => none

/-- The second fallback as a standalone attempt (for stating the chain). -/
def fencedAttempt {α : Type} (parse : String → Option α) (text : String) :
    Option α :=
  match fencedCapture text with
  | some m => if m ≠ "" then parse m else none
  | none => none

/-- The third fallback as a standalone attempt (for stating the chain). -/
def braceAttempt {α : Type} (parse : String → Option α) (text : String) :
    Option α :=
  match braceSlice text with
  | some sub => parse sub
  | none => none

end GeminiService

/-! ## Rate limiter lemmas -/

namespace RateLimit

/-- One in-window allowed step: same instant, count below the max. -/
theorem checkRateLimit_increment (t : Int) (k : Nat) (hk : k < 10) :
    checkRateLimit (some ⟨t, k⟩) t =
      (⟨true, (10 : Int) - ((k : Int) + 1)⟩, some ⟨t, k + 1⟩) := by
  unfold checkRateLimit
  simp only [RATE_LIMIT_WINDOW_MS, MAX_REQUESTS_PER_WINDOW]
  rw [if_neg (by omega), if_neg (by omega)]
  norm_num

/-- A check that finds the counter full inside the window is denied and
writes nothing. -/
theorem checkRateLimit_deny (t now : Int) (k : Nat) (hw : now - t ≤ 3600000)
    (hk : 10 ≤ k) : checkRateLimit (some ⟨t, k⟩) now = (⟨false, 0⟩, none) := by
  unfold checkRateLimit
  simp only [RATE_LIMIT_WINDOW_MS, MAX_REQUESTS_PER_WINDOW]
  rw [if_neg (by omega), if_pos (by omega)]

/-- `runChecks` on the empty schedule. -/
theorem runChecks_nil (s : Option RateCounter) : runChecks s [] = ([], s) := rfl

/-- `runChecks` unfolded one step. -/
theorem runChecks_cons (s : Option RateCounter) (t : Int) (ts : List Int) :
    runChecks s (t :: ts) =
      ((checkRateLimit s t).1 ::
          (runChecks (nextStore s (checkRateLimit s t).2) ts).1,
        (runChecks (nextStore s (checkRateLimit s t).2) ts).2) := rfl

/-- `runChecks` distributes over list append, threading the store. -/
theorem runChecks_append (s : Option RateCounter) (l1 l2 : List Int) :
    runChecks s (l1 ++ l2) =
      ((runChecks s l1).1 ++ (runChecks (runChecks s l1).2 l2).1,
        (runChecks (runChecks s l1).2 l2).2) := by
  induction l1 generalizing s with
  | nil => simp [runChecks]
  | cons t ts ih => simp [runChecks, ih]

/-- Iterating from count `k ≥ 1` inside one window: every check is allowed
with `remaining = 9 - (k + i)`, and the final count is `k + n`. -/
theorem runChecks_window (t : Int) :
    ∀ n k, 1 ≤ k → k + n ≤ 10 →
    runChecks (some ⟨t, k⟩) (List.replicate n t) =
      ((List.range n).map (fun i => ⟨true, (9 : Int) - ((k : Int) + (i : Int))⟩),
        some ⟨t, k + n⟩) := by
  intro n
  induction n with
  | zero => intro k _ _; simp [runChecks]
  | succ n ih =>
    intro k hk1 hk
    rw [List.replicate_succ]
    have hstep := checkRateLimit_increment t k (by omega)
    have hrest := ih (k + 1) (by omega) (by omega)
    simp only [runChecks, hstep, nextStore, hrest]
    have hlist : (List.range (n + 1)).map
          (fun (i : Nat) => RateCheckResult.mk true ((9 : Int) - ((k : Int) + (i : Int)))) =
        RateCheckResult.mk true ((10 : Int) - ((k : Int) + 1)) ::
          (List.range n).map
            (fun (i : Nat) => RateCheckResult.mk true
              ((9 : Int) - (((k + 1 : Nat) : Int) + (i : Int)))) := by
      rw [List.range_succ_eq_map, List.map_cons, List.map_map]
      refine congrArg₂ List.cons ?_ ?_
      · congr 1
        push_cast
        ring
      · apply List.map_congr_left
        intro i _
        simp only [Function.comp_apply]
        congr 1
        push_cast
        ring
    rw [hlist]
    refine congrArg₂ Prod.mk rfl ?_
    have hn : k + 1 + n = k + (n + 1) := by omega
    rw [hn]

end RateLimit

/-! ## Claim theorems -/

/-- Claim C1: the rate limiter check creates `(now, 1)` and allows with
`remaining = 9` when no counter is stored; resets to `(now, 1)` and allows
with `remaining = 9` when `now - windowStart > 1h`; increments and allows
with `remaining = 10 - (count+1)` when inside the window with `count < 10`;
10 checks inside one window are allowed with `remaining` 9,8,...,0 and the
11th is denied; and a check at `windowStart + 1h + 1ms` is allowed and resets
the count to 1. -/
theorem claim1_rate_limit_fixed_window (now ws : Int) (c : Nat) (t : Int) :
    RateLimit.checkRateLimit none now = (⟨true, 9⟩, some ⟨now, 1⟩) ∧
    (now - ws > 3600000 →
      RateLimit.checkRateLimit (some ⟨ws, c⟩) now = (⟨true, 9⟩, some ⟨now, 1⟩)) ∧
    (now - ws ≤ 3600000 → c < 10 →
      RateLimit.checkRateLimit (some ⟨ws, c⟩) now =
        (⟨true, (10 : Int) - ((c : Int) + 1)⟩, some ⟨ws, c + 1⟩)) ∧
    ((RateLimit.runChecks none (List.replicate 11 t)).1 =
      (List.range 10).map (fun i => ⟨true, (9 : Int) - (i : Int)⟩) ++
        [⟨false, 0⟩]) ∧
    RateLimit.checkRateLimit (some ⟨t, c⟩) (t + 3600000 + 1) =
      (⟨true, 9⟩, some ⟨t + 3600000 + 1, 1⟩) := by
  refine ⟨rfl, ?_, ?_, ?_, ?_⟩
  · intro h
    unfold RateLimit.checkRateLimit
    simp only [RateLimit.RATE_LIMIT_WINDOW_MS]
    rw [if_pos (by omega)]
    norm_num [RateLimit.MAX_REQUESTS_PER_WINDOW]
  · intro h hc
    unfold RateLimit.checkRateLimit
    simp only [RateLimit.RATE_LIMIT_WINDOW_MS, RateLimit.MAX_REQUESTS_PER_WINDOW]
    rw [if_neg (by omega), if_neg (by omega)]
    norm_num
  · -- the first check creates (t, 1); nine more increment up to 10; the 11th
    -- finds count = 10 and is denied
    have hfirst : RateLimit.checkRateLimit none t =
        (⟨true, 9⟩, some ⟨t, 1⟩) := rfl
    have h9 := RateLimit.runChecks_window t 9 1 (by omega) (by omega)
    have hdeny := RateLimit.checkRateLimit_deny t t (1 + 9) (by omega) (by omega)
    have hsplit : List.replicate 11 t = t :: (List.replicate 9 t ++ [t]) := rfl
    rw [hsplit, RateLimit.runChecks_cons, hfirst]
    dsimp only [RateLimit.nextStore]
    rw [RateLimit.runChecks_append, h9]
    dsimp only
    rw [RateLimit.runChecks_cons, hdeny]
    dsimp only [RateLimit.nextStore]
    rw [RateLimit.runChecks_nil]
    dsimp only
    have hr : (List.range 10).map
          (fun (i : Nat) => RateLimit.RateCheckResult.mk true ((9 : Int) - (i : Int))) =
        RateLimit.RateCheckResult.mk true 9 ::
          (List.range 9).map
            (fun (i : Nat) => RateLimit.RateCheckResult.mk true
              ((9 : Int) - (((1 : Nat) : Int) + (i : Int)))) := by
      rw [List.range_succ_eq_map, List.map_cons, List.map_map]
      refine congrArg₂ List.cons (by norm_num) ?_
      apply List.map_congr_left
      intro i _
      simp only [Function.comp_apply]
      congr 1
      push_cast
      ring
    rw [hr]
    simp [List.cons_append]
  · unfold RateLimit.checkRateLimit
    simp only [RateLimit.RATE_LIMIT_WINDOW_MS]
    rw [if_pos (by omega)]
    norm_num [RateLimit.MAX_REQUESTS_PER_WINDOW]

/-- Witness for C1: a reset check at window start `-3600001` and time `0`
(hypothesis `now - ws > 3600000`), and an in-window increment from count 3
(hypotheses `now - ws ≤ 3600000`, `count < 10`). -/
theorem claim1_rate_limit_fixed_window_witness :
    RateLimit.checkRateLimit (some ⟨-3600001, 7⟩) 0 = (⟨true, 9⟩, some ⟨0, 1⟩) ∧
    RateLimit.checkRateLimit (some ⟨0, 3⟩) 0 = (⟨true, 6⟩, some ⟨0, 4⟩) := by
  constructor
  · exact (claim1_rate_limit_fixed_window 0 (-3600001) 7 0).2.1 (by decide)
  · have h := (claim1_rate_limit_fixed_window 0 0 3 0).2.2.1 (by decide) (by decide)
    norm_num at h
    exact h

/-- Claim C4: a check that finds `count ≥ 10` inside the current window is
denied and performs no write (so a denied request is never counted and the
counter is unchanged); every counter the limiter ever writes satisfies
`count ≤ 10`, both for the core check and for the catch-wrapped check. -/
theorem claim4_count_invariant :
    (∀ (d : RateLimit.RateCounter) (now : Int),
      now - d.windowStart ≤ 3600000 → 10 ≤ d.count →
      RateLimit.checkRateLimit (some d) now = (⟨false, 0⟩, none)) ∧
    (∀ (stored : Option RateLimit.RateCounter) (now : Int)
        (c : RateLimit.RateCounter),
      (RateLimit.checkRateLimit stored now).2 = some c → c.count ≤ 10) ∧
    (∀ (stored : Option RateLimit.RateCounter) (now : Int),
      (RateLimit.checkRateLimit stored now).1.allowed = false →
      (RateLimit.checkRateLimit stored now).2 = none) ∧
    (∀ (access : Except Unit (Option RateLimit.RateCounter)) (now : Int)
        (c : RateLimit.RateCounter),
      (RateLimit.checkRateLimitWith access now).2 = some c → c.count ≤ 10) := by
  have hwrite : ∀ (stored : Option RateLimit.RateCounter) (now : Int)
      (c : RateLimit.RateCounter),
      (RateLimit.checkRateLimit stored now).2 = some c → c.count ≤ 10 := by
    intro stored now c h
    match stored with
    | none =>
      simp only [RateLimit.checkRateLimit, Option.some.injEq] at h
      subst h
      simp
    | some d =>
      simp only [RateLimit.checkRateLimit] at h
      by_cases h1 : now - d.windowStart > RateLimit.RATE_LIMIT_WINDOW_MS
      · rw [if_pos h1] at h
        simp only [Option.some.injEq] at h
        subst h
        simp
      · rw [if_neg h1] at h
        by_cases h2 : d.count ≥ RateLimit.MAX_REQUESTS_PER_WINDOW
        · rw [if_pos h2] at h
          simp at h
        · rw [if_neg h2] at h
          simp only [Option.some.injEq] at h
          subst h
          simp only [RateLimit.MAX_REQUESTS_PER_WINDOW] at h2
          simp only [RateLimit.RateCounter.count]
          omega
  refine ⟨?_, hwrite, ?_, ?_⟩
  · intro d now hw hk
    exact RateLimit.checkRateLimit_deny d.windowStart now d.count hw hk
  · intro stored now h
    match stored with
    | none => simp [RateLimit.checkRateLimit] at h
    | some d =>
      simp only [RateLimit.checkRateLimit] at h ⊢
      by_cases h1 : now - d.windowStart > RateLimit.RATE_LIMIT_WINDOW_MS
      · rw [if_pos h1] at h
        simp at h
      · rw [if_neg h1] at h ⊢
        by_cases h2 : d.count ≥ RateLimit.MAX_REQUESTS_PER_WINDOW
        · rw [if_pos h2]
        · rw [if_neg h2] at h
          simp at h
  · intro access now c h
    match access with
    | .error _ => simp [RateLimit.checkRateLimitWith] at h
    | .ok stored =>
      simp only [RateLimit.checkRateLimitWith] at h
      exact hwrite stored now c h

/-- Witness for C4: a full counter (count 12 ≥ 10) inside the window is
denied with no write, and a concrete written counter has count ≤ 10. -/
theorem claim4_count_invariant_witness :
    RateLimit.checkRateLimit (some ⟨0, 12⟩) 5 = (⟨false, 0⟩, none) ∧
    RateLimit.RateCounter.count ⟨0, 4⟩ ≤ 10 := by
  refine ⟨claim4_count_invariant.1 ⟨0, 12⟩ 5 (by decide) (by decide), ?_⟩
  exact claim4_count_invariant.2.1 (some ⟨0, 3⟩) 0 ⟨0, 4⟩ (by decide)

/-- Claim C5: when the backing store fails (unreachable list/fetch or
malformed stored JSON — any thrown error), the cache read degrades to a miss
(`none`) in both handler variants, and the rate limiter check degrades to
`allowed: true`; no exception escapes (the embedded functions are total). -/
theorem claim5_store_failure_degrades (now storedAt : Int) :
    AnalyzeA.getCachedAnalysis (.error ()) now = none ∧
    AnalyzeV2.getCachedAnalysis (.error ()) now = none ∧
    AnalyzeA.getCachedAnalysis (.ok (some ⟨storedAt, .error ()⟩)) now = none ∧
    AnalyzeV2.getCachedAnalysis (.ok (some ⟨storedAt, .error ()⟩)) now = none ∧
    RateLimit.checkRateLimitWith (.error ()) now =
      (⟨true, 10⟩, none) := by
  refine ⟨rfl, rfl, ?_, ?_, ?_⟩
  · simp [AnalyzeA.getCachedAnalysis, getCachedAnalysisTTL]
  · simp [AnalyzeV2.getCachedAnalysis, getCachedAnalysisTTL]
  · simp [RateLimit.checkRateLimitWith, RateLimit.MAX_REQUESTS_PER_WINDOW]

/-- Reading a present, well-formed blob reduces to the TTL test. -/
theorem getCached_ok_ite {α : Type} (ttl storedAt now : Int) (p : α) :
    getCachedAnalysisTTL ttl (.ok (some ⟨storedAt, .ok p⟩)) now =
      if now - storedAt > ttl then none else some (p, storedAt) := rfl

/-- Counterexample to C3: the first `getCachedAnalysis` of `src/api/analyze.ts`
(lines 131-163) uses `CACHE_DURATION_MS = 72 h`, so a get issued at
`storedAt + 24 h + 1 ms` (age `86,400,001 ms > 86,400,000 ms`) still returns a
Hit, where the claim asserts a Miss with ttl = 24 h. -/
theorem claim3_counterexample :
    AnalyzeA.getCachedAnalysis
        (.ok (some ⟨0, .ok ⟨none, none, none, none, none, "r"⟩⟩)) 86400001 =
      some (⟨none, none, none, none, none, "r"⟩, 0) ∧
    (86400001 : Int) - 0 > 86400000 := by
  constructor
  · rfl
  · decide

/-- Amended C3: each cache get computes `age = now - storedAt` and misses
exactly when `age > CACHE_DURATION_MS` of its own module — 72 h = 259,200,000 ms
in the first `analyze.ts` handler, 24 h = 86,400,000 ms in the second handler
(and `analyze-enhanced.ts`); at `storedAt + ttl - 1 ms` it returns the stored
payload, at `storedAt + ttl + 1 ms` it misses although the blob is still in
the store. -/
theorem claim3_ttl_boundary (storedAt now : Int) (p : AnalyzeA.Payload)
    (q : AnalyzeV2.Payload) :
    AnalyzeA.CACHE_DURATION_MS = 259200000 ∧
    AnalyzeV2.CACHE_DURATION_MS = 86400000 ∧
    (AnalyzeA.getCachedAnalysis (.ok (some ⟨storedAt, .ok p⟩)) now = none ↔
      now - storedAt > 259200000) ∧
    AnalyzeA.getCachedAnalysis (.ok (some ⟨storedAt, .ok p⟩))
        (storedAt + 259200000 - 1) = some (p, storedAt) ∧
    AnalyzeA.getCachedAnalysis (.ok (some ⟨storedAt, .ok p⟩))
        (storedAt + 259200000 + 1) = none ∧
    (AnalyzeV2.getCachedAnalysis (.ok (some ⟨storedAt, .ok q⟩)) now = none ↔
      now - storedAt > 86400000) ∧
    AnalyzeV2.getCachedAnalysis (.ok (some ⟨storedAt, .ok q⟩))
        (storedAt + 86400000 - 1) = some (q, storedAt) ∧
    AnalyzeV2.getCachedAnalysis (.ok (some ⟨storedAt, .ok q⟩))
        (storedAt + 86400000 + 1) = none := by
  have eA : AnalyzeA.CACHE_DURATION_MS = 259200000 := by
    norm_num [AnalyzeA.CACHE_DURATION_MS]
  have eV : AnalyzeV2.CACHE_DURATION_MS = 86400000 := by
    norm_num [AnalyzeV2.CACHE_DURATION_MS]
  have hA : ∀ n : Int, AnalyzeA.getCachedAnalysis
      (.ok (some ⟨storedAt, .ok p⟩)) n =
      if n - storedAt > 259200000 then none else some (p, storedAt) := by
    intro n
    unfold AnalyzeA.getCachedAnalysis
    rw [getCached_ok_ite, eA]
  have hV : ∀ n : Int, AnalyzeV2.getCachedAnalysis
      (.ok (some ⟨storedAt, .ok q⟩)) n =
      if n - storedAt > 86400000 then none else some (q, storedAt) := by
    intro n
    unfold AnalyzeV2.getCachedAnalysis
    rw [getCached_ok_ite, eV]
  refine ⟨eA, eV, ?_, ?_, ?_, ?_, ?_, ?_⟩
  · rw [hA]
    by_cases hc : now - storedAt > 259200000 <;> simp [hc]
  · rw [hA, if_neg (by omega)]
  · rw [hA, if_pos (by omega)]
  · rw [hV]
    by_cases hc : now - storedAt > 86400000 <;> simp [hc]
  · rw [hV, if_neg (by omega)]
  · rw [hV, if_pos (by omega)]

/-! ## Cache-hit path reduction lemmas -/

/-- The first handler on a fresh cache hit: it responds 200 with the
schema-normalized cached payload, its only effect is the cache read, and it
writes nothing. -/
theorem handlerA_hit (req : AnalyzeA.Request) (env : AnalyzeA.Env) (h : String)
    (d : AnalyzeA.Payload) (c : Int)
    (hm : req.method = "POST") (hk : env.apiKeyPresent = true)
    (hs : sanitizeHandle req.rawHandle = some h) (hf : req.forceRefresh = false)
    (hc : AnalyzeA.getCachedAnalysis env.cacheAccess env.now = some (d, c)) :
    AnalyzeA.handler req env =
      ⟨⟨200, .report (AnalyzeA.applyCacheDefaults d) h "cache" (some c)⟩,
        [Event.cacheGet], none, none⟩ := by
  unfold AnalyzeA.handler
  rw [hm, hk, hf]
  simp [hs, hc]

/-- The second handler on a cache hit (either mode): it responds 200 with the
cached payload verbatim, its only effect is the cache read, and it writes
nothing. -/
theorem handlerV2_hit (req : AnalyzeV2.Request) (env : AnalyzeV2.Env)
    (q : String) (d : AnalyzeV2.Payload) (c : Int)
    (hm : req.method = "POST") (hk : env.apiKeyPresent = true)
    (hs : sanitizeInput req.rawHandle = some q)
    (hc : AnalyzeV2.getCachedAnalysis
        (env.cacheAccess (if req.forceRefresh then .deep else .quick))
        env.now = some (d, c)) :
    AnalyzeV2.handler req env =
      ⟨⟨200, .report d (toKey q) "cache" (some c)⟩,
        [Event.cacheGet], none, none⟩ := by
  unfold AnalyzeV2.handler
  rw [hm, hk]
  simp [hs, hc]

/-- Claim C7: a request whose cache lookup returns a fresh hit is answered
from the cache without the rate limiter being read or written: the effect
trace is just the cache read, the limiter write is `none`, and the whole
handler output is independent of the rate-limit store contents.  This holds
for both handlers of `src/api/analyze.ts`. -/
theorem claim7_cache_hit_no_rate_limit
    (reqA : AnalyzeA.Request) (envA : AnalyzeA.Env) (h : String)
    (d : AnalyzeA.Payload) (c : Int)
    (reqB : AnalyzeV2.Request) (envB : AnalyzeV2.Env) (q : String)
    (dB : AnalyzeV2.Payload) (cB : Int) :
    (reqA.method = "POST" → envA.apiKeyPresent = true →
      sanitizeHandle reqA.rawHandle = some h → reqA.forceRefresh = false →
      AnalyzeA.getCachedAnalysis envA.cacheAccess envA.now = some (d, c) →
      AnalyzeA.handler reqA envA =
        ⟨⟨200, .report (AnalyzeA.applyCacheDefaults d) h "cache" (some c)⟩,
          [Event.cacheGet], none, none⟩ ∧
      (∀ r', AnalyzeA.handler reqA { envA with rateAccess := r' } =
        AnalyzeA.handler reqA envA)) ∧
    (reqB.method = "POST" → envB.apiKeyPresent = true →
      sanitizeInput reqB.rawHandle = some q →
      AnalyzeV2.getCachedAnalysis
          (envB.cacheAccess (if reqB.forceRefresh then .deep else .quick))
          envB.now = some (dB, cB) →
      AnalyzeV2.handler reqB envB =
        ⟨⟨200, .report dB (toKey q) "cache" (some cB)⟩,
          [Event.cacheGet], none, none⟩ ∧
      (∀ r', AnalyzeV2.handler reqB { envB with rateAccess := r' } =
        AnalyzeV2.handler reqB envB)) := by
  constructor
  · intro hm hk hs hf hc
    have h1 := handlerA_hit reqA envA h d c hm hk hs hf hc
    refine ⟨h1, ?_⟩
    intro r'
    have h2 := handlerA_hit reqA { envA with rateAccess := r' } h d c hm hk hs hf hc
    rw [h1, h2]
  · intro hm hk hs hc
    have h1 := handlerV2_hit reqB envB q dB cB hm hk hs hc
    refine ⟨h1, ?_⟩
    intro r'
    have h2 := handlerV2_hit reqB { envB with rateAccess := r' } q dB cB hm hk hs hc
    rw [h1, h2]

/-- Witness for C7: a concrete fresh hit in each handler is served from the
cache with trace `[cacheGet]` and no limiter write. -/
theorem claim7_cache_hit_no_rate_limit_witness :
    AnalyzeA.handler ⟨"POST", "Bob", "en", false⟩
        ⟨true, .ok (some ⟨0, .ok ⟨none, none, none, none, none, "r"⟩⟩),
          .ok none, 5, .error 500⟩ =
      ⟨⟨200, .report (AnalyzeA.applyCacheDefaults
            ⟨none, none, none, none, none, "r"⟩) "bob" "cache" (some 0)⟩,
        [Event.cacheGet], none, none⟩ ∧
    AnalyzeV2.handler ⟨"POST", "Ann B", "en", false⟩
        ⟨true, fun _ => .ok (some ⟨0, .ok ⟨none, none, none, none, none, none, "r"⟩⟩),
          .ok none, 5, .error 500, .error 500⟩ =
      ⟨⟨200, .report ⟨none, none, none, none, none, none, "r"⟩
          (toKey "Ann B") "cache" (some 0)⟩,
        [Event.cacheGet], none, none⟩ := by
  constructor
  · exact (claim7_cache_hit_no_rate_limit ⟨"POST", "Bob", "en", false⟩
      ⟨true, .ok (some ⟨0, .ok ⟨none, none, none, none, none, "r"⟩⟩),
        .ok none, 5, .error 500⟩ "bob" ⟨none, none, none, none, none, "r"⟩ 0
      ⟨"POST", "Ann B", "en", false⟩
      ⟨true, fun _ => .ok (some ⟨0, .ok ⟨none, none, none, none, none, none, "r"⟩⟩),
        .ok none, 5, .error 500, .error 500⟩ "Ann B"
      ⟨none, none, none, none, none, none, "r"⟩ 0).1
      rfl rfl (by decide) rfl (by decide) |>.1
  · exact (claim7_cache_hit_no_rate_limit ⟨"POST", "Bob", "en", false⟩
      ⟨true, .ok (some ⟨0, .ok ⟨none, none, none, none, none, "r"⟩⟩),
        .ok none, 5, .error 500⟩ "bob" ⟨none, none, none, none, none, "r"⟩ 0
      ⟨"POST", "Ann B", "en", false⟩
      ⟨true, fun _ => .ok (some ⟨0, .ok ⟨none, none, none, none, none, none, "r"⟩⟩),
        .ok none, 5, .error 500, .error 500⟩ "Ann B"
      ⟨none, none, none, none, none, none, "r"⟩ 0).2
      rfl rfl (by decide) (by decide) |>.1

/-- Counterexample to C6: the second handler of `src/api/analyze.ts`
(cache-hit path, lines 642-649) returns the stored payload verbatim — a
payload missing `riskFactors` is returned still missing it (not defaulted to
an empty list), and `totalWins`, `totalLosses` and `sources` are not
removed. -/
theorem claim6_counterexample :
    (AnalyzeV2.handler ⟨"POST", "bob", "en", false⟩
        ⟨true,
          fun _ => .ok (some ⟨0,
            .ok ⟨none, none, some 3, some 1, some ["s"], none, "r"⟩⟩),
          .ok none, 5, .error 500, .error 500⟩).response =
      ⟨200, .report ⟨none, none, some 3, some 1, some ["s"], none, "r"⟩
        "bob" "cache" (some 0)⟩ ∧
    (AnalyzeV2.Payload.riskFactors
        ⟨none, none, some 3, some 1, some ["s"], none, "r"⟩ = none) ∧
    (AnalyzeV2.Payload.totalWins
        ⟨none, none, some 3, some 1, some ["s"], none, "r"⟩ = some 3) := by
  refine ⟨?_, rfl, rfl⟩
  decide

/-- Amended C6: the first handler of `src/api/analyze.ts` (lines 214-231)
normalizes a cache hit before answering: `credibilityStrengths` and
`riskFactors` are defaulted to `[]` when absent, and the deprecated
`totalWins`, `totalLosses` and `sources` fields are removed; the second
handler returns the stored payload unchanged (see the counterexample). -/
theorem claim6_schema_evolution (req : AnalyzeA.Request) (env : AnalyzeA.Env)
    (h : String) (d : AnalyzeA.Payload) (c : Int)
    (hm : req.method = "POST") (hk : env.apiKeyPresent = true)
    (hs : sanitizeHandle req.rawHandle = some h) (hf : req.forceRefresh = false)
    (hc : AnalyzeA.getCachedAnalysis env.cacheAccess env.now = some (d, c)) :
    (AnalyzeA.handler req env).response =
      ⟨200, .report (AnalyzeA.applyCacheDefaults d) h "cache" (some c)⟩ ∧
    (AnalyzeA.applyCacheDefaults d).credibilityStrengths =
      some (d.credibilityStrengths.getD []) ∧
    (AnalyzeA.applyCacheDefaults d).riskFactors =
      some (d.riskFactors.getD []) ∧
    (AnalyzeA.applyCacheDefaults d).totalWins = none ∧
    (AnalyzeA.applyCacheDefaults d).totalLosses = none ∧
    (AnalyzeA.applyCacheDefaults d).sources = none ∧
    (d.riskFactors = none →
      (AnalyzeA.applyCacheDefaults d).riskFactors = some []) := by
  refine ⟨?_, rfl, rfl, rfl, rfl, rfl, ?_⟩
  · rw [handlerA_hit req env h d c hm hk hs hf hc]
  · intro hr
    simp [AnalyzeA.applyCacheDefaults, hr]

/-- Witness for C6 (amended): a stored payload missing `riskFactors` but
carrying deprecated `totalWins`/`totalLosses`/`sources` is served by the
first handler with `riskFactors = []` and the deprecated fields stripped. -/
theorem claim6_schema_evolution_witness :
    (AnalyzeA.handler ⟨"POST", "Bob", "en", false⟩
        ⟨true, .ok (some ⟨0,
            .ok ⟨none, none, some 3, some 1, some ["s"], "r"⟩⟩),
          .ok none, 5, .error 500⟩).response =
      ⟨200, .report (AnalyzeA.applyCacheDefaults
          ⟨none, none, some 3, some 1, some ["s"], "r"⟩) "bob" "cache" (some 0)⟩ ∧
    (AnalyzeA.applyCacheDefaults
        ⟨none, none, some 3, some 1, some ["s"], "r"⟩).riskFactors = some [] := by
  have hmain := claim6_schema_evolution ⟨"POST", "Bob", "en", false⟩
    ⟨true, .ok (some ⟨0, .ok ⟨none, none, some 3, some 1, some ["s"], "r"⟩⟩),
      .ok none, 5, .error 500⟩
    "bob" ⟨none, none, some 3, some 1, some ["s"], "r"⟩ 0
    rfl rfl (by decide) rfl (by decide)
  exact ⟨hmain.1, hmain.2.2.2.2.2.2 rfl⟩

/-! ## Forced-refresh sequence lemmas (first handler) -/

/-- One forced-refresh call reduces to the limiter outcome: denial gives a
429 with no further effects; allowance gives a 200 after the AI call and
cache write.  In both cases the limiter write is exactly `checkRateLimit`'s. -/
theorem handlerA_forced_step (s : Option RateLimit.RateCounter) (t : Int)
    (p : AnalyzeA.Payload) :
    AnalyzeA.handler AnalyzeA.forcedReq (AnalyzeA.mkForcedEnv s t p) =
      (if (RateLimit.checkRateLimit s t).1.allowed = false then
        ⟨⟨429, .rateLimited⟩,
          [Event.rateCheck (RateLimit.checkRateLimit s t).1.allowed],
          (RateLimit.checkRateLimit s t).2, none⟩
      else
        ⟨⟨200, .report p "kol" "api" none⟩,
          [Event.rateCheck (RateLimit.checkRateLimit s t).1.allowed,
            Event.aiCall, Event.cacheSet],
          (RateLimit.checkRateLimit s t).2, some p⟩) := by
  have hsan : sanitizeHandle "kol" = some "kol" := by decide
  unfold AnalyzeA.handler AnalyzeA.forcedReq AnalyzeA.mkForcedEnv
  simp [hsan, RateLimit.checkRateLimitWith]

/-- `runForcedStatuses` unfolded one step. -/
theorem runForced_succ (p : AnalyzeA.Payload) (s : Option RateLimit.RateCounter)
    (t : Int) (n : Nat) :
    AnalyzeA.runForcedStatuses p s t (n + 1) =
      (AnalyzeA.handler AnalyzeA.forcedReq
          (AnalyzeA.mkForcedEnv s t p)).response.status ::
        AnalyzeA.runForcedStatuses p
          (RateLimit.nextStore s
            (AnalyzeA.handler AnalyzeA.forcedReq
              (AnalyzeA.mkForcedEnv s t p)).rateWrite) t n := rfl

/-- Forced calls while the window still has quota: each one is allowed (200)
and the count steps up by one; the first over-quota call is denied (429). -/
theorem runForced_drain (p : AnalyzeA.Payload) (t : Int) :
    ∀ j k, k + j = 10 → 1 ≤ k →
    AnalyzeA.runForcedStatuses p (some ⟨t, k⟩) t (j + 1) =
      List.replicate j 200 ++ [429] := by
  intro j
  induction j with
  | zero =>
    intro k hk _
    have hk10 : k = 10 := by omega
    subst hk10
    have hdeny := RateLimit.checkRateLimit_deny t t 10 (by omega) (by omega)
    rw [runForced_succ]
    simp only [handlerA_forced_step, hdeny]
    simp [AnalyzeA.runForcedStatuses, RateLimit.nextStore]
  | succ j ih =>
    intro k hk hk1
    have hstep := RateLimit.checkRateLimit_increment t k (by omega)
    rw [runForced_succ]
    simp only [handlerA_forced_step, hstep, RateLimit.nextStore]
    simp only [Bool.true_eq_false, if_false]
    rw [ih (k + 1) (by omega) (by omega)]
    simp [List.replicate_succ]

/-- 11 consecutive forced-refresh calls from one identity, starting with no
counter: ten 200s, then a 429. -/
theorem runForced_eleven (p : AnalyzeA.Payload) (t : Int) :
    AnalyzeA.runForcedStatuses p none t 11 =
      List.replicate 10 200 ++ [429] := by
  have hfirst : RateLimit.checkRateLimit none t =
      (⟨true, 9⟩, some ⟨t, 1⟩) := rfl
  show AnalyzeA.runForcedStatuses p none t (10 + 1) = _
  rw [runForced_succ]
  simp only [handlerA_forced_step, hfirst, RateLimit.nextStore]
  simp only [Bool.true_eq_false, if_false]
  rw [runForced_drain p t 9 1 (by omega) (by omega)]
  simp [List.replicate_succ]

/-- Counterexample to C2: in the second handler of `src/api/analyze.ts`, a
quick-scan request (forceRefresh = false) whose cache lookup misses reaches
the external AI call with no rate-limiter check at all (lines 652-664 guard
the limiter by `scanMode === 'deep'`), and a forced-refresh request does not
skip the cache get — with a fresh deep-cache entry it is answered from the
cache, consuming no quota. -/
theorem claim2_counterexample :
    ((AnalyzeV2.handler ⟨"POST", "bob", "en", false⟩
        ⟨true, fun _ => .ok none, .ok none, 0,
          .ok ⟨none, none, none, none, none, none, "q"⟩, .error 500⟩).events =
      [Event.cacheGet, Event.aiCall, Event.cacheSet]) ∧
    (Event.rateCheck true ∉
      (AnalyzeV2.handler ⟨"POST", "bob", "en", false⟩
        ⟨true, fun _ => .ok none, .ok none, 0,
          .ok ⟨none, none, none, none, none, none, "q"⟩, .error 500⟩).events) ∧
    (Event.rateCheck false ∉
      (AnalyzeV2.handler ⟨"POST", "bob", "en", false⟩
        ⟨true, fun _ => .ok none, .ok none, 0,
          .ok ⟨none, none, none, none, none, none, "q"⟩, .error 500⟩).events) ∧
    ((AnalyzeV2.handler ⟨"POST", "bob", "en", true⟩
        ⟨true, fun _ => .ok (some ⟨0,
            .ok ⟨none, none, none, none, none, none, "r"⟩⟩),
          .ok none, 5, .error 500, .error 500⟩).events = [Event.cacheGet]) := by
  refine ⟨by decide, by decide, by decide, by decide⟩

/-- Every effect trace of the first handler has one of five shapes; in
particular a rate check separates any AI call from what precedes it, and an
AI call happens only after an allowed rate check. -/
theorem handlerA_events_shape (req : AnalyzeA.Request) (env : AnalyzeA.Env) :
    (AnalyzeA.handler req env).events = [] ∨
    (AnalyzeA.handler req env).events = [Event.cacheGet] ∨
    (∃ evs : List Event, (evs = [] ∨ evs = [Event.cacheGet]) ∧
      ((AnalyzeA.handler req env).events = evs ++ [Event.rateCheck false] ∨
       ∃ tail, (tail = [Event.aiCall] ∨ tail = [Event.aiCall, Event.cacheSet]) ∧
         (AnalyzeA.handler req env).events =
           evs ++ Event.rateCheck true :: tail)) := by
  unfold AnalyzeA.handler
  split
  · exact Or.inl rfl
  · split
    · exact Or.inl rfl
    · split
      · exact Or.inl rfl
      · split
        · exact Or.inr (Or.inl rfl)
        · refine Or.inr (Or.inr ?_)
          refine ⟨if req.forceRefresh = false then [Event.cacheGet] else [],
            by split <;> simp, ?_⟩
          split
          · next hall =>
            rw [hall]
            exact Or.inl rfl
          · next hall =>
            rw [Bool.not_eq_false] at hall
            rw [hall]
            split
            · exact Or.inr ⟨[Event.aiCall], Or.inl rfl, rfl⟩
            · exact Or.inr ⟨[Event.aiCall, Event.cacheSet], Or.inr rfl, rfl⟩

/-- Amended C2 (first handler of `src/api/analyze.ts`, whose cache/limiter
flow `analyze-enhanced.ts` shares): a forced refresh skips the cache get
entirely; every AI call is preceded by an allowed rate check; 10 consecutive
forced-refresh calls from one identity exhaust the quota (all 200) and the
11th is rejected with the 429 throttling response.  In the second handler,
forced refresh instead selects deep-scan mode whose cache is still consulted,
and quick-scan misses reach the AI call without any limiter check (see the
counterexample). -/
theorem claim2_forced_refresh_rate_limited
    (req : AnalyzeA.Request) (env : AnalyzeA.Env) (p : AnalyzeA.Payload)
    (t : Int) :
    (req.forceRefresh = true →
      Event.cacheGet ∉ (AnalyzeA.handler req env).events) ∧
    (Event.aiCall ∈ (AnalyzeA.handler req env).events →
      ∃ l₁ l₂, (AnalyzeA.handler req env).events =
        l₁ ++ Event.rateCheck true :: l₂ ∧ Event.aiCall ∈ l₂) ∧
    (AnalyzeA.runForcedStatuses p none t 11 =
      List.replicate 10 200 ++ [429]) ∧
    ((AnalyzeA.handler AnalyzeA.forcedReq
        (AnalyzeA.mkForcedEnv (some ⟨t, 10⟩) t p)).response =
      ⟨429, .rateLimited⟩) := by
  refine ⟨?_, ?_, runForced_eleven p t, ?_⟩
  · intro hf
    unfold AnalyzeA.handler
    split
    · simp
    · split
      · simp
      · split
        · simp
        · split
          · next hit heq =>
            rw [hf] at heq
            simp at heq
          · rw [hf]
            simp only [Bool.true_eq_false, if_false]
            split
            · simp
            · split <;> simp
  · intro hai
    rcases handlerA_events_shape req env with h | h | ⟨evs, hevs, h | ⟨tail, htail, h⟩⟩
    · rw [h] at hai
      simp at hai
    · rw [h] at hai
      simp at hai
    · exfalso
      rw [h] at hai
      rcases hevs with he | he <;> rw [he] at hai <;> simp at hai
    · refine ⟨evs, tail, h, ?_⟩
      rcases htail with ht | ht <;> rw [ht] <;> simp
  · have hdeny := RateLimit.checkRateLimit_deny t t 10 (by omega) (by omega)
    rw [handlerA_forced_step]
    simp only [hdeny]
    rfl

/-- Witness for C2 (amended): a concrete forced call performs no cache get,
and its AI call is preceded by an allowed rate check. -/
theorem claim2_forced_refresh_rate_limited_witness :
    Event.cacheGet ∉ (AnalyzeA.handler AnalyzeA.forcedReq
      (AnalyzeA.mkForcedEnv none 0 ⟨none, none, none, none, none, "p"⟩)).events ∧
    ∃ l₁ l₂, (AnalyzeA.handler AnalyzeA.forcedReq
        (AnalyzeA.mkForcedEnv none 0 ⟨none, none, none, none, none, "p"⟩)).events =
      l₁ ++ Event.rateCheck true :: l₂ ∧ Event.aiCall ∈ l₂ := by
  have h := claim2_forced_refresh_rate_limited AnalyzeA.forcedReq
    (AnalyzeA.mkForcedEnv none 0 ⟨none, none, none, none, none, "p"⟩)
    ⟨none, none, none, none, none, "p"⟩ 0
  exact ⟨h.1 rfl, h.2.1 (by decide)⟩

/-! ## Deep-scan history post-processing -/

/-- `processHistory` keeps only events with a non-empty `sourceUrl` and at
most 8 of them. -/
theorem processHistory_sourced (h : Option (List AnalyzeV2.HistEvent)) :
    (∀ e ∈ (AnalyzeV2.processHistory h).getD [],
      ∃ u, e.sourceUrl = some u ∧ u ≠ "") ∧
    ((AnalyzeV2.processHistory h).getD []).length ≤ 8 := by
  match h with
  | none => simp [AnalyzeV2.processHistory]
  | some l =>
    simp only [AnalyzeV2.processHistory, Option.getD_some]
    constructor
    · intro e he
      have hmem : e ∈ l.filter (fun e => AnalyzeV2.truthyUrl e.sourceUrl) :=
        List.mem_of_mem_take he
      have htr : AnalyzeV2.truthyUrl e.sourceUrl = true :=
        (List.mem_filter.mp hmem).2
      match hu : e.sourceUrl with
      | none => rw [hu] at htr; simp [AnalyzeV2.truthyUrl] at htr
      | some u =>
        rw [hu] at htr
        simp only [AnalyzeV2.truthyUrl, decide_eq_true_eq] at htr
        exact ⟨u, rfl, htr⟩
    · calc (((l.filter _).take 8)).length ≤ 8 := by
            rw [List.length_take]
            omega

/-- The second handler's deep-scan success path: the cached payload and the
returned payload are the parsed data with its history filtered and
truncated. -/
theorem handlerV2_deep_success (req : AnalyzeV2.Request) (env : AnalyzeV2.Env)
    (q : String) (data : AnalyzeV2.Payload)
    (hm : req.method = "POST") (hk : env.apiKeyPresent = true)
    (hs : sanitizeInput req.rawHandle = some q) (hf : req.forceRefresh = true)
    (hc : AnalyzeV2.getCachedAnalysis (env.cacheAccess .deep) env.now = none)
    (hall : (RateLimit.checkRateLimitWith env.rateAccess env.now).1.allowed
      = true)
    (hai : env.aiDeep = .ok data) :
    AnalyzeV2.handler req env =
      ⟨⟨200, .report
          { data with history := AnalyzeV2.processHistory data.history }
          (toKey q) "api" none⟩,
        [Event.cacheGet, Event.rateCheck true, Event.aiCall, Event.cacheSet],
        (RateLimit.checkRateLimitWith env.rateAccess env.now).2,
        some { data with
          history := AnalyzeV2.processHistory data.history }⟩ := by
  unfold AnalyzeV2.handler
  rw [hm, hk, hf]
  simp [hs, hc, hai, hall]

/-- Claim C10: on the deep-scan success path, the payload that is cached and
returned has only history events with a non-empty `sourceUrl`, and at most 8
of them: the upstream events are filtered on `sourceUrl` truthiness and
truncated to 8 before the cache write and the response. -/
theorem claim10_deep_history_sourced (req : AnalyzeV2.Request)
    (env : AnalyzeV2.Env) (q : String) (data : AnalyzeV2.Payload)
    (hm : req.method = "POST") (hk : env.apiKeyPresent = true)
    (hs : sanitizeInput req.rawHandle = some q) (hf : req.forceRefresh = true)
    (hc : AnalyzeV2.getCachedAnalysis (env.cacheAccess .deep) env.now = none)
    (hall : (RateLimit.checkRateLimitWith env.rateAccess env.now).1.allowed
      = true)
    (hai : env.aiDeep = .ok data) :
    ∃ p : AnalyzeV2.Payload,
      (AnalyzeV2.handler req env).cacheWrite = some p ∧
      (AnalyzeV2.handler req env).response =
        ⟨200, .report p (toKey q) "api" none⟩ ∧
      (∀ e ∈ p.history.getD [], ∃ u, e.sourceUrl = some u ∧ u ≠ "") ∧
      (p.history.getD []).length ≤ 8 := by
  refine ⟨{ data with history := AnalyzeV2.processHistory data.history },
    ?_, ?_, ?_, ?_⟩
  · rw [handlerV2_deep_success req env q data hm hk hs hf hc hall hai]
  · rw [handlerV2_deep_success req env q data hm hk hs hf hc hall hai]
  · exact (processHistory_sourced data.history).1
  · exact (processHistory_sourced data.history).2

/-- Witness for C10: a deep scan whose upstream history has one sourced
event, one unsourced event and one empty-string source caches and returns
only the sourced event. -/
theorem claim10_deep_history_sourced_witness :
    ∃ p : AnalyzeV2.Payload,
      (AnalyzeV2.handler ⟨"POST", "bob", "en", true⟩
        ⟨true, fun _ => .ok none, .ok none, 0, .error 500,
          .ok ⟨none, none, none, none, none,
            some [⟨some "https://e.x/1", "a"⟩, ⟨none, "b"⟩, ⟨some "", "c"⟩],
            "r"⟩⟩).cacheWrite = some p ∧
      (AnalyzeV2.handler ⟨"POST", "bob", "en", true⟩
        ⟨true, fun _ => .ok none, .ok none, 0, .error 500,
          .ok ⟨none, none, none, none, none,
            some [⟨some "https://e.x/1", "a"⟩, ⟨none, "b"⟩, ⟨some "", "c"⟩],
            "r"⟩⟩).response =
        ⟨200, .report p (toKey "bob") "api" none⟩ ∧
      (∀ e ∈ p.history.getD [], ∃ u, e.sourceUrl = some u ∧ u ≠ "") ∧
      (p.history.getD []).length ≤ 8 := by
  exact claim10_deep_history_sourced ⟨"POST", "bob", "en", true⟩
    ⟨true, fun _ => .ok none, .ok none, 0, .error 500,
      .ok ⟨none, none, none, none, none,
        some [⟨some "https://e.x/1", "a"⟩, ⟨none, "b"⟩, ⟨some "", "c"⟩],
        "r"⟩⟩
    "bob"
    ⟨none, none, none, none, none,
      some [⟨some "https://e.x/1", "a"⟩, ⟨none, "b"⟩, ⟨some "", "c"⟩], "r"⟩
    rfl rfl (by decide) rfl (by decide) (by decide) rfl

/-! ## Character lemmas for the normalizers -/

/-- `Char.ofNat` of a small scalar value decodes back to it. -/
theorem char_toNat_ofNat (n : Nat) (h : n < 55296) :
    (Char.ofNat n).toNat = n := by
  have hv : n.isValidChar := Or.inl h
  rw [Char.ofNat, dif_pos hv]
  simp [Char.ofNatAux, Char.toNat, UInt32.toNat]

/-- The code point of `toLowerJs c`. -/
theorem toLowerJs_toNat (c : Char) :
    (toLowerJs c).toNat =
      if 65 ≤ c.toNat ∧ c.toNat ≤ 90 then c.toNat + 32 else c.toNat := by
  unfold toLowerJs
  split
  · next h => exact char_toNat_ofNat _ (by omega)
  · next h => rfl

/-- `toLowerJs` fixes characters outside `A`-`Z`. -/
theorem toLowerJs_fix (c : Char) (h : ¬(65 ≤ c.toNat ∧ c.toNat ≤ 90)) :
    toLowerJs c = c := by
  unfold toLowerJs
  exact if_neg h

/-- `toLowerJs` is idempotent. -/
theorem toLowerJs_idem (c : Char) : toLowerJs (toLowerJs c) = toLowerJs c := by
  by_cases h : 65 ≤ c.toNat ∧ c.toNat ≤ 90
  · have h1 : (toLowerJs c).toNat = c.toNat + 32 := by
      rw [toLowerJs_toNat, if_pos h]
    exact toLowerJs_fix _ (by omega)
  · rw [toLowerJs_fix c h]
    exact toLowerJs_fix c h

/-- Propositional form of `isHandleChar`. -/
theorem isHandleChar_iff (c : Char) :
    isHandleChar c = true ↔
      (65 ≤ c.toNat ∧ c.toNat ≤ 90) ∨ (97 ≤ c.toNat ∧ c.toNat ≤ 122) ∨
      (48 ≤ c.toNat ∧ c.toNat ≤ 57) ∨ c.toNat = 95 := by
  simp [isHandleChar, Bool.or_eq_true, Bool.and_eq_true, decide_eq_true_eq]
  tauto

/-- Propositional form of `isJsSpace`. -/
theorem isJsSpace_iff (c : Char) :
    isJsSpace c = true ↔
      c.toNat = 9 ∨ c.toNat = 10 ∨ c.toNat = 11 ∨ c.toNat = 12 ∨
      c.toNat = 13 ∨ c.toNat = 32 ∨ c.toNat = 160 ∨ c.toNat = 5760 ∨
      (8192 ≤ c.toNat ∧ c.toNat ≤ 8202) ∨ c.toNat = 8232 ∨ c.toNat = 8233 ∨
      c.toNat = 8239 ∨ c.toNat = 8287 ∨ c.toNat = 12288 ∨ c.toNat = 65279 := by
  simp [isJsSpace, Bool.or_eq_true, Bool.and_eq_true, decide_eq_true_eq]
  tauto

/-- Propositional form of `dangerousChar`. -/
theorem dangerousChar_iff (c : Char) :
    dangerousChar c = true ↔
      c.toNat = 60 ∨ c.toNat = 62 ∨ c.toNat = 123 ∨ c.toNat = 125 ∨
      c.toNat = 40 ∨ c.toNat = 41 ∨ c.toNat = 91 ∨ c.toNat = 93 ∨
      c.toNat = 59 ∨ c.toNat = 96 ∨ c.toNat = 36 ∨ c.toNat = 92 ∨
      c.toNat = 124 ∨ c.toNat = 38 := by
  simp [dangerousChar, Bool.or_eq_true, decide_eq_true_eq]
  tauto

/-- The lower-cased image of a handle character is a handle character, is not
whitespace, and is not `@`. -/
theorem isHandleChar_lower (c : Char) (hc : isHandleChar c = true) :
    isHandleChar (toLowerJs c) = true ∧ isJsSpace (toLowerJs c) = false ∧
    toLowerJs c ≠ '@' := by
  rw [isHandleChar_iff] at hc
  have ht := toLowerJs_toNat c
  have hat : ('@' : Char).toNat = 64 := rfl
  refine ⟨?_, ?_, ?_⟩
  · rw [isHandleChar_iff]
    split at ht <;> omega
  · rw [← Bool.not_eq_true, isJsSpace_iff]
    intro hsp
    split at ht <;> omega
  · intro he
    have := congrArg Char.toNat he
    rw [hat] at this
    split at ht <;> omega

/-- The lower-cased image of a non-denylisted character is non-denylisted. -/
theorem dangerousChar_lower (c : Char) (hc : dangerousChar c = false) :
    dangerousChar (toLowerJs c) = false := by
  rw [← Bool.not_eq_true, dangerousChar_iff] at hc ⊢
  have ht := toLowerJs_toNat c
  intro hd
  split at ht <;> omega

/-! ## List lemmas for the normalizers -/

/-- `dropWhile` is the identity on lists with no satisfying member. -/
theorem dropWhile_eq_self_of_not {p : Char → Bool} :
    ∀ l : List Char, (∀ c ∈ l, p c = false) → l.dropWhile p = l := by
  intro l h
  match l with
  | [] => rfl
  | c :: rest =>
    rw [List.dropWhile_cons, h c (by simp)]
    simp

/-- `trimJs` is the identity on whitespace-free lists. -/
theorem trimJs_eq_self (l : List Char) (h : ∀ c ∈ l, isJsSpace c = false) :
    trimJs l = l := by
  unfold trimJs
  rw [dropWhile_eq_self_of_not l h,
    dropWhile_eq_self_of_not l.reverse (by intro c hc; exact h c (by simpa using hc)),
    List.reverse_reverse]

/-- `stripAt` is the identity when the head is not `@`. -/
theorem stripAt_eq_self : ∀ l : List Char,
    (∀ c, l.head? = some c → c ≠ '@') → stripAt l = l := by
  intro l h
  match l with
  | [] => rfl
  | c :: rest =>
    rw [show stripAt (c :: rest) = if c = '@' then rest else c :: rest from rfl]
    rw [if_neg (h c rfl)]

/-- `foldWsAux` unfolded one step. -/
theorem foldWsAux_cons (d : Char) (rest : List Char) (b : Bool) :
    foldWsAux (d :: rest) b =
      if isJsSpace d then
        (if b then foldWsAux rest true else '_' :: foldWsAux rest true)
      else d :: foldWsAux rest false := rfl

/-- Members of `foldWsAux` output are never whitespace. -/
theorem foldWsAux_no_space :
    ∀ (cs : List Char) (b : Bool) (c : Char),
      c ∈ foldWsAux cs b → isJsSpace c = false := by
  intro cs
  induction cs with
  | nil => intro b c h; simp [foldWsAux] at h
  | cons d rest ih =>
    intro b c h
    rw [foldWsAux_cons] at h
    by_cases hd : isJsSpace d = true
    · rw [if_pos hd] at h
      cases b with
      | true =>
        rw [if_pos rfl] at h
        exact ih true c h
      | false =>
        rw [if_neg (by simp)] at h
        simp only [List.mem_cons] at h
        rcases h with h | h
        · subst h; decide
        · exact ih true c h
    · rw [if_neg hd] at h
      simp only [List.mem_cons] at h
      rcases h with h | h
      · subst h; simpa using hd
      · exact ih false c h

/-- `foldWsAux` does not lengthen its input. -/
theorem foldWsAux_length :
    ∀ (cs : List Char) (b : Bool), (foldWsAux cs b).length ≤ cs.length := by
  intro cs
  induction cs with
  | nil => intro b; simp [foldWsAux]
  | cons d rest ih =>
    intro b
    rw [foldWsAux_cons]
    by_cases hd : isJsSpace d = true
    · rw [if_pos hd]
      cases b with
      | true =>
        rw [if_pos rfl]
        exact Nat.le_trans (ih true) (by simp)
      | false =>
        rw [if_neg (by simp)]
        simpa using ih true
    · rw [if_neg hd]
      simpa using ih false

/-- `foldWsAux` of a nonempty list from outside a run is nonempty. -/
theorem foldWsAux_ne_nil (d : Char) (rest : List Char) :
    foldWsAux (d :: rest) false ≠ [] := by
  rw [foldWsAux_cons]
  by_cases hd : isJsSpace d = true
  · rw [if_pos hd, if_neg (by simp)]
    simp
  · rw [if_neg hd]
    simp

/-- Every member of `foldWsAux` output is `_` or a member of the input. -/
theorem foldWsAux_mem :
    ∀ (cs : List Char) (b : Bool) (c : Char),
      c ∈ foldWsAux cs b → c = '_' ∨ c ∈ cs := by
  intro cs
  induction cs with
  | nil => intro b c h; simp [foldWsAux] at h
  | cons d rest ih =>
    intro b c h
    rw [foldWsAux_cons] at h
    by_cases hd : isJsSpace d = true
    · rw [if_pos hd] at h
      have hsub : c ∈ foldWsAux rest true ∨ c = '_' := by
        cases b with
        | true => rw [if_pos rfl] at h; exact Or.inl h
        | false =>
          rw [if_neg (by simp)] at h
          simp only [List.mem_cons] at h
          rcases h with h | h
          · exact Or.inr h
          · exact Or.inl h
      rcases hsub with h1 | h1
      · rcases ih true c h1 with h2 | h2
        · exact Or.inl h2
        · exact Or.inr (by simp [h2])
      · exact Or.inl h1
    · rw [if_neg hd] at h
      simp only [List.mem_cons] at h
      rcases h with h | h
      · exact Or.inr (by simp [h])
      · rcases ih false c h with h1 | h1
        · exact Or.inl h1
        · exact Or.inr (by simp [h1])

/-- `foldWsAux` is the identity on whitespace-free lists. -/
theorem foldWsAux_eq_self :
    ∀ (cs : List Char) (b : Bool), (∀ c ∈ cs, isJsSpace c = false) →
      foldWsAux cs b = cs := by
  intro cs
  induction cs with
  | nil => intro b _; rfl
  | cons d rest ih =>
    intro b h
    rw [foldWsAux_cons]
    rw [if_neg (by simp [h d (by simp)])]
    rw [ih false (by intro c hc; exact h c (by simp [hc]))]

/-- Counterexample to C8: the permissive normalizer strips only one leading
`@`, so it accepts `"@@bob"` as `"@bob"`; the derived key is `"@bob"`, and
re-normalizing that key strips another `@` and yields `"bob"` — re-applying
the normalizer to an accepted output is not the identity. -/
theorem claim8_counterexample :
    sanitizeInput "@@bob" = some "@bob" ∧
    toKey "@bob" = "@bob" ∧
    sanitizeInput "@bob" = some "bob" ∧
    ("bob" : String) ≠ "@bob" := by
  refine ⟨by decide, by decide, by decide, by decide⟩

/-- Amended C8: normalization is deterministic (pure functions of their
argument).  The strict normalizer `sanitizeHandle` is idempotent on all its
accepted outputs.  The permissive `sanitizeInput` with its derived
lower-cased whitespace-folded key is idempotent exactly on keys that do not
begin with `@`: for such keys, re-normalizing accepts the key unchanged and
derives the same key again (a key beginning with `@` loses that `@`, see the
counterexample). -/
theorem claim8_normalizer_idempotence :
    (∀ s t, sanitizeHandle s = some t → sanitizeHandle t = some t) ∧
    (∀ s t, sanitizeInput s = some t →
      (∀ c, (toKey t).toList.head? = some c → c ≠ '@') →
      sanitizeInput (toKey t) = some (toKey t) ∧
        toKey (toKey t) = toKey t) := by
  constructor
  · intro s t h
    simp only [sanitizeHandle] at h
    set u := stripAt (trimJs s.toList) with hu
    by_cases h1 : u.length = 0 ∨ u.length > MAX_HANDLE_LENGTH
    · rw [if_pos h1] at h
      exact absurd h (by simp)
    · rw [if_neg h1] at h
      by_cases h2 : ¬(u.all isHandleChar)
      · rw [if_pos h2] at h
        exact absurd h (by simp)
      · rw [if_neg h2] at h
        rw [Option.some.injEq] at h
        subst h
        have hall : u.all isHandleChar = true := by
          by_contra hcon
          exact h2 hcon
        have hmemall : ∀ c ∈ u, isHandleChar c = true := by
          rw [List.all_eq_true] at hall
          exact fun c hc => hall c hc
        have hlenu : 1 ≤ u.length ∧ u.length ≤ 50 := by
          push_neg at h1
          rcases h1 with ⟨h1a, h1b⟩
          have : u.length ≠ 0 := h1a
          simp only [MAX_HANDLE_LENGTH] at h1b
          omega
        have hv1 : ∀ c ∈ u.map toLowerJs, isJsSpace c = false := by
          intro c hc
          obtain ⟨x, hx, rfl⟩ := List.mem_map.mp hc
          exact (isHandleChar_lower x (hmemall x hx)).2.1
        have hv2 : ∀ c ∈ u.map toLowerJs, isHandleChar c = true := by
          intro c hc
          obtain ⟨x, hx, rfl⟩ := List.mem_map.mp hc
          exact (isHandleChar_lower x (hmemall x hx)).1
        have hlist : (String.mk (u.map toLowerJs)).toList = u.map toLowerJs :=
          rfl
        simp only [sanitizeHandle, hlist]
        rw [trimJs_eq_self _ hv1]
        rw [stripAt_eq_self _ ?_]
        · rw [if_neg ?_, if_neg ?_]
          · rw [Option.some.injEq]
            congr 1
            rw [List.map_map]
            exact List.map_congr_left (fun x _ => toLowerJs_idem x)
          · rw [not_not, List.all_eq_true]
            exact fun c hc => hv2 c hc
          · rw [List.length_map]
            push_neg
            simp only [MAX_HANDLE_LENGTH]
            omega
        · intro c hc
          match hm : u with
          | [] => simp at hlenu
          | x :: u' =>
            simp only [List.map_cons, List.head?_cons, Option.some.injEq] at hc
            subst hc
            exact (isHandleChar_lower x (hmemall x (by simp))).2.2
  · intro s t h hhead
    simp only [sanitizeInput] at h
    set u := stripAt (trimJs s.toList) with hu
    by_cases h1 : u.length = 0 ∨ u.length > MAX_HANDLE_LENGTH
    · rw [if_pos h1] at h
      exact absurd h (by simp)
    · rw [if_neg h1] at h
      by_cases h2 : u.any dangerousChar
      · rw [if_pos h2] at h
        exact absurd h (by simp)
      · rw [if_neg h2] at h
        rw [Option.some.injEq] at h
        subst h
        have hlenu : 1 ≤ u.length ∧ u.length ≤ 50 := by
          push_neg at h1
          rcases h1 with ⟨h1a, h1b⟩
          have : u.length ≠ 0 := h1a
          simp only [MAX_HANDLE_LENGTH] at h1b
          omega
        have hdall : ∀ c ∈ u, dangerousChar c = false := by
          intro c hc
          by_contra hcon
          exact h2 (List.any_eq_true.mpr ⟨c, hc, by simpa using hcon⟩)
        have hk : (toKey (String.mk u)).toList =
            foldWsAux (u.map toLowerJs) false := rfl
        have hw1 : ∀ c ∈ foldWsAux (u.map toLowerJs) false,
            isJsSpace c = false :=
          fun c hc => foldWsAux_no_space _ false c hc
        have hwlen : (foldWsAux (u.map toLowerJs) false).length ≤ u.length := by
          have := foldWsAux_length (u.map toLowerJs) false
          rwa [List.length_map] at this
        have hwne : foldWsAux (u.map toLowerJs) false ≠ [] := by
          match hm : u with
          | [] => simp at hlenu
          | x :: u' =>
            rw [List.map_cons]
            exact foldWsAux_ne_nil (toLowerJs x) (u'.map toLowerJs)
        have hwd : ∀ c ∈ foldWsAux (u.map toLowerJs) false,
            dangerousChar c = false := by
          intro c hc
          rcases foldWsAux_mem _ false c hc with h3 | h3
          · subst h3; decide
          · obtain ⟨x, hx, rfl⟩ := List.mem_map.mp h3
            exact dangerousChar_lower x (hdall x hx)
        have hwfix : ∀ c ∈ foldWsAux (u.map toLowerJs) false,
            toLowerJs c = c := by
          intro c hc
          rcases foldWsAux_mem _ false c hc with h3 | h3
          · subst h3; decide
          · obtain ⟨x, _, rfl⟩ := List.mem_map.mp h3
            exact toLowerJs_idem x
        constructor
        · simp only [sanitizeInput, hk]
          rw [trimJs_eq_self _ hw1]
          rw [stripAt_eq_self _ (by
            intro c hc
            apply hhead c
            rw [hk]
            exact hc)]
          rw [if_neg ?_, if_neg ?_]
          · rw [Option.some.injEq]
            rfl
          · intro hcon
            obtain ⟨c, hc, hcd⟩ := List.any_eq_true.mp hcon
            rw [hwd c hc] at hcd
            exact Bool.false_ne_true hcd
          · push_neg
            simp only [MAX_HANDLE_LENGTH]
            constructor
            · simpa [List.length_eq_zero] using hwne
            · omega
        · show String.mk (foldWsAux ((toKey (String.mk u)).toList.map toLowerJs)
              false) = toKey (String.mk u)
          rw [hk]
          rw [List.map_congr_left hwfix, List.map_id']
          rw [foldWsAux_eq_self _ false hw1]
          rfl

/-- Witness for C8 (amended): the strict normalizer is idempotent on the
accepted output of `"@Kol_99"`, and the permissive key of `"Ann B"` (which
does not begin with `@`) re-normalizes to itself. -/
theorem claim8_normalizer_idempotence_witness :
    sanitizeHandle "kol_99" = some "kol_99" ∧
    sanitizeInput (toKey "Ann B") = some (toKey "Ann B") ∧
    toKey (toKey "Ann B") = toKey "Ann B" := by
  refine ⟨?_, ?_⟩
  · exact claim8_normalizer_idempotence.1 "@Kol_99" "kol_99" (by decide)
  · exact claim8_normalizer_idempotence.2 "Ann B" "Ann B" (by decide)
      (by
        intro c hc
        have he : (toKey "Ann B").toList.head? = some 'a' := by decide
        rw [he, Option.some.injEq] at hc
        subst hc
        decide)

/-- Counterexample to C9: on the same upstream text (a fenced ` ```json `
block) and the same parse function, the service modules' three-step
`extractJson` succeeds via the fenced-block fallback, while the serverless
handler's parsing (`JSON.parse(text || "{}")`, `src/api/analyze.ts` lines
305-306) is a single direct parse and fails — so the repository's
orchestrators do not all follow the three-step chain, and a failure of the
first step alone can be terminal. -/
theorem claim9_counterexample :
    GeminiService.extractJson
        (fun s => if s = "\x7b\x7d" then some 0 else none)
        "```json \x7b\x7d ```" = some 0 ∧
    AnalyzeA.parseResponseText
        (fun s => if s = "\x7b\x7d" then some 0 else none)
        "```json \x7b\x7d ```" = none := by
  constructor
  · decide
  · decide

/-- Amended C9: the Gemini service modules' `extractJson` follows the
three-step defensive chain — direct parse first, then the nonempty fenced
` ```json ` capture, then the first-`\x7b`-to-last-`\x7d` slice, in that
priority — and returns `null` exactly when all three attempts fail.  The
blob-cached serverless handlers instead parse the response text directly in
a single step. -/
theorem claim9_extract_json_chain (α : Type) (parse : String → Option α)
    (text : String) :
    GeminiService.extractJson parse text =
      ((parse text).orElse (fun _ =>
        ((GeminiService.fencedAttempt parse text).orElse (fun _ =>
          GeminiService.braceAttempt parse text)))) ∧
    (GeminiService.extractJson parse text = none ↔
      parse text = none ∧ GeminiService.fencedAttempt parse text = none ∧
        GeminiService.braceAttempt parse text = none) := by
  have hchain : GeminiService.extractJson parse text =
      ((parse text).orElse (fun _ =>
        ((GeminiService.fencedAttempt parse text).orElse (fun _ =>
          GeminiService.braceAttempt parse text)))) := by
    unfold GeminiService.extractJson GeminiService.fencedAttempt
      GeminiService.braceAttempt
    cases hp : parse text with
    | some v => rfl
    | none =>
      dsimp only
      cases hf : GeminiService.fencedCapture text with
      | some m =>
        dsimp only
        by_cases hm : m ≠ ""
        · rw [if_pos hm]
          cases hq : parse m with
          | some v => rfl
          | none => cases hb : GeminiService.braceSlice text <;> rfl
        · rw [if_neg hm]
          cases hb : GeminiService.braceSlice text <;> rfl
      | none =>
        dsimp only
        cases hb : GeminiService.braceSlice text <;> rfl
  refine ⟨hchain, ?_⟩
  rw [hchain]
  cases hp : parse text with
  | some v => simp [Option.orElse]
  | none =>
    cases hf : GeminiService.fencedAttempt parse text with
    | some v => simp [Option.orElse]
    | none =>
      cases hb : GeminiService.braceAttempt parse text <;>
        simp [Option.orElse]
